import Mathlib

/-
Verification of the splice-pattern collation engine of nexons.py.

The Python source is shallowly embedded below.  Machine integers are
modelled as `Int`, Python tuples of splice boundaries as `List Int`,
splice patterns (tuples of tuples) as `List (List Int)`, Python dicts as
association lists in insertion order, and Python exceptions (KeyError,
TypeError, ValueError, IndexError) as `Except String` results.  The one
floating-point constant (the 0.15 polyA threshold) is modelled as the
exact rational 3/20; every concrete input used below is far from the
float/rational boundary.
-/

namespace Nexons

/-- A splice pattern: ordered tuples of junction coordinates
(`((ex1_end),(ex2_start,ex2_end),(ex3_start))` in the source). -/
abbrev Splice := List (List Int)

/-- Python strings are modelled as `List Char` where their exact
character-level manipulation matters. -/
abbrev Str := List Char

/-- Python `min(iterable)` over a list of ints (`None` for the empty
iterable, where Python raises ValueError). -/
def pymin : List Int → Option Int
  | [] => none
  | x :: xs => some (xs.foldl min x)

/-- One donor/acceptor snap test from `create_splice_name_map`
(nexons.py lines 325-348): compute the minimum distance of `x` to the
site list; if it is in (0, flexibility], return the site at the first
index achieving that minimum (`all_donors[[...].index(mindist)]`),
otherwise no snap. -/
def trySnap (flexibility : Int) (sites : List Int) (x : Int) : Option Int :=
  match pymin (sites.map fun s => |x - s|) with
  | none => none
  | some m =>
    if 0 < m ∧ m ≤ flexibility then sites.find? (fun s => |x - s| == m)
    else none

/-- The value of a boundary after the snap test (unchanged when no snap
occurs). -/
def snap (flexibility : Int) (sites : List Int) (x : Int) : Int :=
  (trySnap flexibility sites x).getD x

/-- Correction of the junction tuple at index `i` of a pattern of `n`
junctions (nexons.py lines 323-349): the first junction is snapped
against the donor set, the last against the acceptor set, and interior
junctions snap their acceptor-side value against acceptors and their
donor-side value against donors, independently. -/
def correctJunction (flexibility : Int) (all_donors all_acceptors : List Int)
    (n i : Nat) (t : List Int) : List Int :=
  if i = 0 then
    match trySnap flexibility all_donors (t.getD 0 0) with
    | some d => [d]
    | none => t
  else if i = n - 1 then
    match trySnap flexibility all_acceptors (t.getD 0 0) with
    | some a => [a]
    | none => t
  else
    [(trySnap flexibility all_acceptors (t.getD 0 0)).getD (t.getD 0 0),
     (trySnap flexibility all_donors (t.getD 1 0)).getD (t.getD 1 0)]

/-- The `corrected_splice` built by the `for i in range(len(splice_to_test))`
loop of `create_splice_name_map`. -/
def correct_splice (flexibility : Int) (all_donors all_acceptors : List Int)
    (sp : Splice) : Splice :=
  (List.range sp.length).map
    (fun i => correctJunction flexibility all_donors all_acceptors sp.length i (sp.getD i []))

/-- The `too_far` double loop of `create_splice_name_map` (lines 296-305):
true iff some boundary position of the candidate differs from the test
pattern's by more than `flexibility` (the Python loop short-circuits via
`break`; `List.any` has the same value). -/
def too_far (flexibility : Int) (splice_to_test test_segment : Splice) : Bool :=
  (List.range splice_to_test.length).any fun i =>
    (List.range (splice_to_test.getD i []).length).any fun j =>
      decide (flexibility < |(splice_to_test.getD i []).getD j 0 - (test_segment.getD i []).getD j 0|)

/-- Spec-side per-pattern closeness: every corresponding boundary value
differs by at most `flexibility`. -/
def allWithin (flexibility : Int) (splice_to_test test_segment : Splice) : Bool :=
  (List.range splice_to_test.length).all fun i =>
    (List.range (splice_to_test.getD i []).length).all fun j =>
      decide (|(splice_to_test.getD i []).getD j 0 - (test_segment.getD i []).getD j 0| ≤ flexibility)

/-- The scan over `valid_splice_patterns` (lines 291-314): skip accepted
patterns of a different segment count, return the first one that is not
`too_far`. -/
def findMatch (flexibility : Int) (splice_to_test : Splice) : List Splice → Option Splice
  | [] => none
  | t :: rest =>
    if t.length ≠ splice_to_test.length then findMatch flexibility splice_to_test rest
    else if too_far flexibility splice_to_test t then findMatch flexibility splice_to_test rest
    else some t

/-- One value of the map returned by `create_splice_name_map`:
`{"splice": ..., "updated": ...}`. -/
structure MapEntry where
  splice : Splice
  updated : Bool
deriving DecidableEq, Repr

/-- Processing of one candidate of the priority-ordered list (the body of
`for splice_to_test in splices`): state is (map so far, accepted
`valid_splice_patterns`). -/
def collateStep (flexibility : Int) (all_donors all_acceptors : List Int)
    (st : List (Splice × MapEntry) × List Splice) (splice_to_test : Splice) :
    List (Splice × MapEntry) × List Splice :=
  match findMatch flexibility splice_to_test st.2 with
  | some t => (st.1 ++ [(splice_to_test, ⟨t, false⟩)], st.2)
  | none =>
    let c := correct_splice flexibility all_donors all_acceptors splice_to_test
    (st.1 ++ [(splice_to_test, ⟨c, decide (c ≠ splice_to_test)⟩)], st.2 ++ [c])

/-- `create_splice_name_map` (nexons.py lines 259-361), as the association
list of `(candidate, entry)` in processing order. -/
def create_splice_name_map (splices : List Splice) (flexibility : Int)
    (all_donors all_acceptors : List Int) : List (Splice × MapEntry) :=
  (splices.foldl (collateStep flexibility all_donors all_acceptors) ([], [])).1

/-- Spec-side matching, following the claim's words: the first previously
accepted pattern of the same segment count whose every corresponding
boundary value differs by at most `flexibility`. -/
def claimedMatch (flexibility : Int) (splice_to_test : Splice) (accepted : List Splice) :
    Option Splice :=
  accepted.find? fun t =>
    (t.length == splice_to_test.length) && allWithin flexibility splice_to_test t

/-- Spec-side candidate processing: greedy first match in acceptance
order; an unmatched candidate is accepted in donor/acceptor-corrected
form, and it is that corrected form that subsequent candidates are
compared against. -/
def claimedStep (flexibility : Int) (all_donors all_acceptors : List Int)
    (st : List (Splice × MapEntry) × List Splice) (splice_to_test : Splice) :
    List (Splice × MapEntry) × List Splice :=
  match claimedMatch flexibility splice_to_test st.2 with
  | some t => (st.1 ++ [(splice_to_test, ⟨t, false⟩)], st.2)
  | none =>
    let c := correct_splice flexibility all_donors all_acceptors splice_to_test
    (st.1 ++ [(splice_to_test, ⟨c, decide (c ≠ splice_to_test)⟩)], st.2 ++ [c])

/-- Spec-side merge pass. -/
def claimed_name_map (splices : List Splice) (flexibility : Int)
    (all_donors all_acceptors : List Int) : List (Splice × MapEntry) :=
  (splices.foldl (claimedStep flexibility all_donors all_acceptors) ([], [])).1

/-- Association-list lookup, mirroring Python dict `[]` access (first
binding wins; keys are unique in all uses). -/
def alookup {β : Type} : List (Splice × β) → Splice → Option β
  | [], _ => none
  | (k, v) :: rest, key => if key = k then some v else alookup rest key

theorem any_bang_eq_bang_all {α : Type} (l : List α) (p : α → Bool) :
    (l.any fun a => !p a) = !l.all p := by
  induction l with
  | nil => simp
  | cons a as ih => simp [List.any_cons, List.all_cons, ih, Bool.not_and]

theorem decide_lt_eq_bang_decide_le (f x : Int) :
    decide (f < x) = !decide (x ≤ f) := by
  by_cases h : x ≤ f
  · simp [h, not_lt.mpr h]
  · simp [h, lt_of_not_le h]

theorem any_fun_congr {α : Type} (l : List α) {p q : α → Bool}
    (h : ∀ a ∈ l, p a = q a) : l.any p = l.any q := by
  induction l with
  | nil => rfl
  | cons a as ih =>
    simp only [List.any_cons, h a (by simp)]
    rw [ih fun b hb => h b (by simp [hb])]

theorem too_far_eq_bang_allWithin (flexibility : Int) (c t : Splice) :
    too_far flexibility c t = !allWithin flexibility c t := by
  unfold too_far allWithin
  rw [← any_bang_eq_bang_all]
  apply any_fun_congr
  intro i _
  rw [← any_bang_eq_bang_all]
  apply any_fun_congr
  intro j _
  exact decide_lt_eq_bang_decide_le _ _

theorem findMatch_eq_claimedMatch (flexibility : Int) (c : Splice) (accepted : List Splice) :
    findMatch flexibility c accepted = claimedMatch flexibility c accepted := by
  induction accepted with
  | nil => rfl
  | cons t rest ih =>
    by_cases hlen : t.length = c.length
    · by_cases hfar : too_far flexibility c t = true
      · have hw : allWithin flexibility c t = false := by
          have := too_far_eq_bang_allWithin flexibility c t
          rw [hfar] at this
          cases h : allWithin flexibility c t <;> simp [h] at this ⊢
        simp [findMatch, claimedMatch, hlen, hfar, hw, List.find?_cons, ih, claimedMatch]
      · have hfar' : too_far flexibility c t = false := by
          cases h : too_far flexibility c t <;> simp_all
        have hw : allWithin flexibility c t = true := by
          have := too_far_eq_bang_allWithin flexibility c t
          rw [hfar'] at this
          cases h : allWithin flexibility c t <;> simp [h] at this ⊢
        simp [findMatch, claimedMatch, hlen, hfar', hw, List.find?_cons]
    · simp [findMatch, claimedMatch, hlen, List.find?_cons, ih, claimedMatch]

/-- Claim C1: in the Collator's merge pass, every candidate, processed in
priority order, is mapped to the first previously accepted pattern of the
same segment count whose every corresponding boundary value differs by at
most `flexibility` (greedy first match in acceptance order, with the
per-boundary short-circuit check equivalent to the all-within test), and
an unmatched candidate is accepted in corrected form, which is what
subsequent candidates are compared against: the source merge pass equals
the spec-side description verbatim, including the accepted-pattern state. -/
theorem create_splice_name_map_eq_claimed (splices : List Splice) (flexibility : Int)
    (all_donors all_acceptors : List Int) :
    create_splice_name_map splices flexibility all_donors all_acceptors =
      claimed_name_map splices flexibility all_donors all_acceptors ∧
    splices.foldl (collateStep flexibility all_donors all_acceptors) ([], []) =
      splices.foldl (claimedStep flexibility all_donors all_acceptors) ([], []) := by
  have hstep : collateStep flexibility all_donors all_acceptors =
      claimedStep flexibility all_donors all_acceptors := by
    funext st c
    unfold collateStep claimedStep
    rw [findMatch_eq_claimedMatch]
  constructor
  · unfold create_splice_name_map claimed_name_map
    rw [hstep]
  · rw [hstep]

theorem foldl_min_le_init (xs : List Int) (x : Int) : xs.foldl min x ≤ x := by
  induction xs generalizing x with
  | nil => exact le_refl x
  | cons a as ih => exact le_trans (ih (min x a)) (min_le_left x a)

theorem foldl_min_le_mem (xs : List Int) (x : Int) : ∀ y ∈ xs, xs.foldl min x ≤ y := by
  induction xs generalizing x with
  | nil => intro y hy; simp at hy
  | cons a as ih =>
    intro y hy
    rcases List.mem_cons.mp hy with rfl | hy'
    · exact le_trans (foldl_min_le_init as (min x y)) (min_le_right x y)
    · exact ih (min x a) y hy'

theorem foldl_min_mem (xs : List Int) (x : Int) : xs.foldl min x = x ∨ xs.foldl min x ∈ xs := by
  induction xs generalizing x with
  | nil => left; rfl
  | cons a as ih =>
    rcases ih (min x a) with h | h
    · rcases min_choice x a with hc | hc
      · left; rw [List.foldl_cons, h, hc]
      · right; rw [List.foldl_cons, h, hc]; exact List.mem_cons_self a as
    · right; exact List.mem_cons_of_mem a h

theorem pymin_le {l : List Int} {m : Int} (h : pymin l = some m) : ∀ y ∈ l, m ≤ y := by
  cases l with
  | nil => cases h
  | cons x xs =>
    intro y hy
    have hm : m = xs.foldl min x := by
      have := h
      unfold pymin at this
      exact (Option.some.inj this).symm
    rcases List.mem_cons.mp hy with rfl | hy'
    · rw [hm]; exact foldl_min_le_init xs y
    · rw [hm]; exact foldl_min_le_mem xs x y hy'

theorem pymin_mem {l : List Int} {m : Int} (h : pymin l = some m) : m ∈ l := by
  cases l with
  | nil => cases h
  | cons x xs =>
    have hm : m = xs.foldl min x := by
      have := h
      unfold pymin at this
      exact (Option.some.inj this).symm
    rw [hm]
    rcases foldl_min_mem xs x with h' | h'
    · rw [h']; exact List.mem_cons_self x xs
    · exact List.mem_cons_of_mem x h'

theorem exists_find?_eq_some {α : Type} {p : α → Bool} {l : List α}
    (h : ∃ a ∈ l, p a = true) : ∃ b, l.find? p = some b := by
  induction l with
  | nil => rcases h with ⟨a, ha, _⟩; simp at ha
  | cons a as ih =>
    by_cases hp : p a = true
    · exact ⟨a, by simp [List.find?_cons, hp]⟩
    · rcases h with ⟨b, hb, hpb⟩
      rcases List.mem_cons.mp hb with rfl | hb'
      · exact absurd hpb hp
      · rcases ih ⟨b, hb', hpb⟩ with ⟨c, hc⟩
        refine ⟨c, ?_⟩
        rw [List.find?_cons]
        simp only [Bool.not_eq_true] at hp
        rw [hp]
        exact hc

theorem snap_spec (f : Int) (sites : List Int) (x m : Int)
    (hm : pymin (sites.map fun s => |x - s|) = some m) :
    (snap f sites x ≠ x ↔ (0 < m ∧ m ≤ f)) ∧
    (snap f sites x ≠ x → |snap f sites x - x| ≤ f) ∧
    (x ∈ sites → snap f sites x = x) := by
  have hmem : m ∈ sites.map (fun s => |x - s|) := pymin_mem hm
  have hle : ∀ y ∈ sites.map (fun s => |x - s|), m ≤ y := pymin_le hm
  obtain ⟨s₀, hs₀, hs₀e⟩ := List.mem_map.mp hmem
  by_cases hc : 0 < m ∧ m ≤ f
  · obtain ⟨b, hb⟩ : ∃ b, sites.find? (fun s => |x - s| == m) = some b :=
      exists_find?_eq_some ⟨s₀, hs₀, by simp [hs₀e]⟩
    have hxb : |x - b| = m := by
      have := List.find?_some hb
      simpa using this
    have hsnap : snap f sites x = b := by
      simp [snap, trySnap, hm, hc, hb]
    have hbx : b ≠ x := by
      intro he
      rw [he] at hxb
      simp at hxb
      omega
    have hmoved : snap f sites x ≠ x := by rw [hsnap]; exact hbx
    refine ⟨⟨fun _ => hc, fun _ => hmoved⟩, fun _ => ?_, fun hxs => ?_⟩
    · rw [hsnap, abs_sub_comm, hxb]; exact hc.2
    · exfalso
      have h0 : (0 : Int) ∈ sites.map (fun s => |x - s|) :=
        List.mem_map.mpr ⟨x, hxs, by simp⟩
      have := hle 0 h0
      omega
  · have hsnap : snap f sites x = x := by
      simp [snap, trySnap, hm, hc]
    exact ⟨⟨fun hne => absurd hsnap hne, fun hcc => absurd hcc hc⟩,
           fun hne => absurd hsnap hne, fun _ => hsnap⟩

theorem getD_append_lt {α : Type} (l l' : List α) (d : α) :
    ∀ i, i < l.length → (l ++ l').getD i d = l.getD i d := by
  induction l with
  | nil => intro i hi; simp at hi
  | cons a as ih =>
    intro i hi
    cases i with
    | zero => rfl
    | succ k =>
      simp only [List.cons_append, List.getD_cons_succ]
      exact ih k (by simpa using hi)

theorem getD_append_len {α : Type} (l l' : List α) (d : α) :
    (l ++ l').getD l.length d = l'.getD 0 d := by
  induction l with
  | nil => rfl
  | cons a as ih => simpa using ih

theorem getD_map_lt {α β : Type} (g : α → β) (l : List α) (d : α) (d' : β) :
    ∀ k, k < l.length → (l.map g).getD k d' = g (l.getD k d) := by
  induction l with
  | nil => intro k hk; simp at hk
  | cons a as ih =>
    intro k hk
    cases k with
    | zero => rfl
    | succ j =>
      simp only [List.map_cons, List.getD_cons_succ]
      exact ih j (by simpa using hk)

theorem correctJunction_first (f : Int) (donors acceptors : List Int) (n : Nat) (x : Int) :
    correctJunction f donors acceptors n 0 [x] = [snap f donors x] := by
  unfold correctJunction
  cases h : trySnap f donors x <;> simp [snap, h]

theorem correctJunction_last (f : Int) (donors acceptors : List Int) (n i : Nat)
    (hi : i ≠ 0) (hn : i = n - 1) (y : Int) :
    correctJunction f donors acceptors n i [y] = [snap f acceptors y] := by
  unfold correctJunction
  rw [if_neg hi, if_pos hn]
  cases h : trySnap f acceptors y <;> simp [snap, h]

theorem correctJunction_mid (f : Int) (donors acceptors : List Int) (n i : Nat)
    (hi : i ≠ 0) (hn : i ≠ n - 1) (t : List Int) :
    correctJunction f donors acceptors n i t =
      [snap f acceptors (t.getD 0 0), snap f donors (t.getD 1 0)] := by
  unfold correctJunction
  rw [if_neg hi, if_neg hn]
  rfl

theorem correct_splice_shape (f : Int) (all_donors all_acceptors : List Int)
    (x y : Int) (mids : List (List Int)) :
    correct_splice f all_donors all_acceptors (([x] :: mids) ++ [[y]]) =
      ([snap f all_donors x] ::
        (mids.map fun t => [snap f all_acceptors (t.getD 0 0), snap f all_donors (t.getD 1 0)])) ++
        [[snap f all_acceptors y]] := by
  have hsp : ((([x] :: mids) ++ [[y]]) : Splice).length = mids.length + 2 := by simp
  have hlenL : (correct_splice f all_donors all_acceptors (([x] :: mids) ++ [[y]])).length
      = mids.length + 2 := by simp [correct_splice]
  have hlenR : ((([snap f all_donors x] ::
        (mids.map fun t => [snap f all_acceptors (t.getD 0 0), snap f all_donors (t.getD 1 0)])) ++
        [[snap f all_acceptors y]]) : Splice).length = mids.length + 2 := by simp
  apply List.ext_getElem (by rw [hlenL, hlenR])
  intro i h₁ h₂
  have hi : i < mids.length + 2 := by rw [← hlenL]; exact h₁
  have hL : (correct_splice f all_donors all_acceptors (([x] :: mids) ++ [[y]]))[i] =
      correctJunction f all_donors all_acceptors (mids.length + 2) i
        (((([x] :: mids) ++ [[y]]) : Splice).getD i []) := by
    rw [← List.getD_eq_getElem _ [] h₁]
    unfold correct_splice
    rw [hsp]
    have hr : (List.range (mids.length + 2)).getD i 0 = i := by
      rw [List.getD_eq_getElem _ 0 (by simpa using hi)]
      exact List.getElem_range i _
    rw [getD_map_lt _ _ 0 [] i (by simpa using hi), hr]
  rw [hL, ← List.getD_eq_getElem _ [] h₂]
  rcases i with _ | k
  · rw [getD_append_lt ([x] :: mids) [[y]] [] 0 (by simp), List.getD_cons_zero,
        getD_append_lt _ [[snap f all_acceptors y]] [] 0 (by simp), List.getD_cons_zero,
        correctJunction_first]
  · rcases Nat.lt_or_ge k mids.length with hk' | hk'
    · rw [getD_append_lt ([x] :: mids) [[y]] [] (k + 1) (by simp; omega), List.getD_cons_succ,
          getD_append_lt _ [[snap f all_acceptors y]] [] (k + 1) (by simp; omega),
          List.getD_cons_succ,
          getD_map_lt _ _ [] [] k hk',
          correctJunction_mid f all_donors all_acceptors (mids.length + 2) (k + 1)
            (by omega) (by omega)]
    · have hkeq : k = mids.length := by omega
      subst hkeq
      have e₁ : (([x] :: mids) : Splice).length = mids.length + 1 := by simp
      have e₂ : (([snap f all_donors x] ::
          (mids.map fun t =>
            [snap f all_acceptors (t.getD 0 0), snap f all_donors (t.getD 1 0)])) :
            Splice).length = mids.length + 1 := by simp
      rw [← e₁, getD_append_len ([x] :: mids) [[y]] [], List.getD_cons_zero, e₁]
      rw [show (mids.length + 1 : Nat) = (([snap f all_donors x] ::
          (mids.map fun t =>
            [snap f all_acceptors (t.getD 0 0), snap f all_donors (t.getD 1 0)])) :
            Splice).length from e₂.symm]
      rw [getD_append_len _ [[snap f all_acceptors y]] [], List.getD_cons_zero, e₂]
      exact correctJunction_last f all_donors all_acceptors (mids.length + 2) (mids.length + 1)
        (by omega) (by omega) y

/-- Claim C2: when an unmatched candidate becomes a new accepted pattern,
donor/acceptor correction snaps each boundary independently: the first
boundary against the donor set, the last against the acceptor set, and
each interior boundary's acceptor-side value against acceptors and its
donor-side value against donors (second conjunct); and a boundary is
moved if and only if its minimum distance to a known site is in
(0, flexibility], so a boundary exactly on a known site is never
modified, and no correction ever moves a boundary by more than
flexibility (first conjunct). -/
theorem donor_acceptor_correction_spec :
    (∀ (f : Int) (sites : List Int) (x m : Int),
       pymin (sites.map fun s => |x - s|) = some m →
       ((snap f sites x ≠ x ↔ (0 < m ∧ m ≤ f)) ∧
        (snap f sites x ≠ x → |snap f sites x - x| ≤ f) ∧
        (x ∈ sites → snap f sites x = x))) ∧
    (∀ (f : Int) (all_donors all_acceptors : List Int) (x y : Int) (mids : List (List Int)),
       correct_splice f all_donors all_acceptors ([x] :: mids ++ [[y]]) =
         [snap f all_donors x] ::
           (mids.map fun t =>
             [snap f all_acceptors (t.getD 0 0), snap f all_donors (t.getD 1 0)]) ++
           [[snap f all_acceptors y]]) :=
  ⟨snap_spec, correct_splice_shape⟩

/-- Witness for C2 at a concrete input: boundary 498, donor set {500},
flexibility 5, minimum distance 2 ∈ (0, 5]: the boundary moves, by at
most 5; and a two-junction pattern is corrected junction-wise. -/
theorem donor_acceptor_correction_witness :
    (snap 5 [500] 498 ≠ 498 ∧ |snap 5 [500] 498 - 498| ≤ 5) ∧
    correct_splice 5 [500] [900] [[498], [900]] =
      [[snap 5 [500] 498], [snap 5 [900] 900]] := by
  have h1 := donor_acceptor_correction_spec.1 5 [500] 498 2 (by decide)
  have h2 := donor_acceptor_correction_spec.2 5 [500] [900] 498 900 []
  have hmoved : snap 5 [500] 498 ≠ 498 := h1.1.mpr (by decide)
  exact ⟨⟨hmoved, h1.2.1 hmoved⟩, h2⟩

theorem findMatch_length {f : Int} {c t : Splice} :
    ∀ {accepted : List Splice}, findMatch f c accepted = some t → t.length = c.length := by
  intro accepted
  induction accepted with
  | nil => intro h; cases h
  | cons a rest ih =>
    intro h
    unfold findMatch at h
    by_cases hl : a.length ≠ c.length
    · rw [if_pos hl] at h; exact ih h
    · rw [if_neg hl] at h
      by_cases hf : too_far f c a = true
      · rw [if_pos hf] at h; exact ih h
      · rw [if_neg (by simpa using hf)] at h
        cases h
        push_neg at hl
        exact hl

theorem correct_splice_length (f : Int) (d a : List Int) (sp : Splice) :
    (correct_splice f d a sp).length = sp.length := by
  simp [correct_splice]

theorem alookup_cons {β : Type} (k : Splice) (v : β) (rest : List (Splice × β)) (key : Splice) :
    alookup ((k, v) :: rest) key = if key = k then some v else alookup rest key := rfl

theorem alookup_append_some {β : Type} {m : List (Splice × β)} (m' : List (Splice × β))
    {key : Splice} {v : β} (h : alookup m key = some v) :
    alookup (m ++ m') key = some v := by
  induction m with
  | nil => cases h
  | cons p rest ih =>
    obtain ⟨k0, v0⟩ := p
    rw [List.cons_append, alookup_cons] at *
    by_cases hk : key = k0
    · rw [if_pos hk] at h ⊢; exact h
    · rw [if_neg hk] at h ⊢; exact ih h

theorem alookup_append_none {β : Type} {m : List (Splice × β)} (m' : List (Splice × β))
    {key : Splice} (h : alookup m key = none) :
    alookup (m ++ m') key = alookup m' key := by
  induction m with
  | nil => rfl
  | cons p rest ih =>
    obtain ⟨k0, v0⟩ := p
    rw [List.cons_append, alookup_cons] at *
    by_cases hk : key = k0
    · rw [if_pos hk] at h; cases h
    · rw [if_neg hk] at h ⊢; exact ih h

theorem collate_fold_len (f : Int) (d a : List Int) :
    ∀ (splices : List Splice) (st : List (Splice × MapEntry) × List Splice),
      (∀ sp e, alookup st.1 sp = some e → e.splice.length = sp.length) →
      ∀ sp e, alookup (splices.foldl (collateStep f d a) st).1 sp = some e →
        e.splice.length = sp.length := by
  intro splices
  induction splices with
  | nil => intro st h; exact h
  | cons c rest ih =>
    intro st h
    rw [List.foldl_cons]
    apply ih
    intro sp e he
    unfold collateStep at he
    cases hLm : findMatch f c st.2 with
    | some t =>
      rw [hLm] at he
      simp only at he
      cases hold : alookup st.1 sp with
      | some v =>
        rw [alookup_append_some _ hold] at he
        cases he
        exact h sp _ hold
      | none =>
        rw [alookup_append_none _ hold, alookup_cons] at he
        by_cases hk : sp = c
        · rw [if_pos hk] at he
          cases he
          simp only
          rw [findMatch_length hLm, hk]
        · rw [if_neg hk] at he; cases he
    | none =>
      rw [hLm] at he
      simp only at he
      cases hold : alookup st.1 sp with
      | some v =>
        rw [alookup_append_some _ hold] at he
        cases he
        exact h sp _ hold
      | none =>
        rw [alookup_append_none _ hold, alookup_cons] at he
        by_cases hk : sp = c
        · rw [if_pos hk] at he
          cases he
          simp only
          rw [correct_splice_length, hk]
        · rw [if_neg hk] at he; cases he

/-- Claim C3: the Collator's matching never merges patterns of different
segment counts (for any flexibility value), and every input pattern's
resolved pattern — a previously accepted match or its own corrected
form — has exactly the same number of segments as the input pattern. -/
theorem splice_name_map_preserves_segment_count
    (splices : List Splice) (flexibility : Int) (all_donors all_acceptors : List Int)
    (sp : Splice) (e : MapEntry)
    (h : alookup (create_splice_name_map splices flexibility all_donors all_acceptors) sp
          = some e) :
    e.splice.length = sp.length := by
  unfold create_splice_name_map at h
  exact collate_fold_len flexibility all_donors all_acceptors splices ([], [])
    (by intro sp e h; cases h) sp e h

/-- Witness for C3 at a concrete input. -/
theorem splice_name_map_preserves_segment_count_witness :
    (⟨[[3], [5]], false⟩ : MapEntry).splice.length = ([[3], [5]] : Splice).length :=
  splice_name_map_preserves_segment_count [[[3], [5]]] 0 [] [] [[3], [5]]
    ⟨[[3], [5]], false⟩ (by decide)

/-- Python `s.count(sub)` for a fixed 4-character pattern: number of
non-overlapping occurrences, scanning left to right. -/
def count4 (w x y z : Char) : List Char → Nat
  | a :: b :: c :: d :: rest =>
    if a = w ∧ b = x ∧ c = y ∧ d = z then 1 + count4 w x y z rest
    else count4 w x y z (b :: c :: d :: rest)
  | _ => 0

/-- `exon_seq.count("AAAA") + exon_seq.count("TTTT") + exon_seq.count("ACAC")
+ exon_seq.count("GTGT")` (nexons.py line 802). -/
def repeatScore (s : List Char) : Nat :=
  count4 'A' 'A' 'A' 'A' s + count4 'T' 'T' 'T' 'T' s +
    count4 'A' 'C' 'A' 'C' s + count4 'G' 'T' 'G' 'T' s

/-- One-or-more iterations of the polyA trimming `while` loop (nexons.py
lines 794-810), with fuel (the loop pops one segment per iteration, so
`locations.length` iterations suffice).  The float threshold
`count > 0.15*len` is modelled exactly as `3*len < 20*count`. -/
def trimGo (flexibility : Int) (splice_acceptors : List Int) (sequence : List Char) :
    Nat → List (Int × Int) → List (Nat × Nat) → List (Int × Int) × List (Nat × Nat)
  | 0, locations, cDNA_locations => (locations, cDNA_locations)
  | fuel + 1, locations, cDNA_locations =>
    if locations.isEmpty then (locations, cDNA_locations)
    else if splice_acceptors.any fun acceptor =>
        decide (|acceptor - (locations.getLastD (0, 0)).1| ≤ flexibility) then
      (locations, cDNA_locations)
    else
      let c := cDNA_locations.getLastD (0, 0)
      let exon_seq := (sequence.drop c.1).take (c.2 - c.1)
      if 3 * exon_seq.length < 20 * repeatScore exon_seq then
        trimGo flexibility splice_acceptors sequence fuel
          locations.dropLast cDNA_locations.dropLast
      else (locations, cDNA_locations)

/-- The polyA trimming loop: drop segments from the 3' end while the last
segment's boundary is not near a known acceptor and its read-local
subsequence is repeat-rich. -/
def trimPolyA (flexibility : Int) (splice_acceptors : List Int) (sequence : List Char)
    (locations : List (Int × Int)) (cDNA_locations : List (Nat × Nat)) :
    List (Int × Int) × List (Nat × Nat) :=
  trimGo flexibility splice_acceptors sequence locations.length locations cDNA_locations

/-- The claim's version of the repeat-richness test: occurrence count
multiplied by 4 at least 0.15 times the subsequence length,
i.e. `4*count ≥ (3/20)*len`, i.e. `3*len ≤ 80*count`. -/
def claimedRepeatRich (s : List Char) : Prop := 3 * s.length ≤ 80 * repeatScore s

/-- The post-trim reverse-splicing classification (nexons.py lines
813-824): three rejection reasons checked in priority order. -/
def classifyReverse (reverse_exon_index : Nat) (reverse_exon_first : Bool) (n : Nat) :
    Option String :=
  if reverse_exon_index = n ∧ reverse_exon_first = false then
    some "FAIL: Reverse splicing or mapping (last exon)"
  else if reverse_exon_first = true ∧ (reverse_exon_index = 0 ∨ n < reverse_exon_index) then
    some "FAIL: Reverse splicing or mapping (first exon)"
  else if 0 < reverse_exon_index ∧ reverse_exon_index ≤ n then
    some "FAIL: Reverse splicing or mapping (middle/>1 exon)"
  else none

/-- State of the segment-parsing loop of `get_chexons_segment_string`
(nexons.py lines 739-777) as far as it concerns reverse-splice flags. -/
structure ScanState where
  count : Nat
  reverse_exon_first : Bool
  reverse_exon_index : Nat
  locations : List (Int × Int)
deriving DecidableEq, Repr

/-- One segment of the parsing loop: flag a first segment running against
the gene's strand, a second segment jumping backwards or reversed, and
(for later segments, only while no reversal was recorded) any backward
jump or reversed segment. -/
def scanStep (strandPlus : Bool) (st : ScanState) (se : Int × Int) : ScanState :=
  let count := st.count + 1
  let start := se.1
  let e := se.2
  let prevEnd := (st.locations.getLastD (0, 0)).2
  let rf1 := if count = 1 ∧ (if strandPlus then e < start else start < e) then true
             else st.reverse_exon_first
  let rf2 := if count = 2 ∧ (if strandPlus then start < prevEnd else prevEnd < start) then true
             else rf1
  let ri1 := if count = 2 ∧ (if strandPlus then e < start else start < e) then count
             else st.reverse_exon_index
  let ri2 := if 2 < count ∧ st.reverse_exon_index = 0 ∧
                (if strandPlus then (start < prevEnd ∨ e < start)
                 else (prevEnd < start ∨ start < e)) then count
             else ri1
  ⟨count, rf2, ri2, st.locations ++ [(start, e)]⟩

/-- The whole parsing loop over a read's segments. -/
def scanSegments (strandPlus : Bool) (segs : List (Int × Int)) : ScanState :=
  segs.foldl (scanStep strandPlus) ⟨0, false, 0, []⟩

/-- The splice boundaries emitted for the surviving locations (nexons.py
lines 853-861): first segment contributes only its end, last only its
start, interior segments both. -/
def splice_boundariesOf (locations : List (Int × Int)) : Splice :=
  (List.range locations.length).map fun i =>
    if i = 0 then [(locations.getD i (0, 0)).2]
    else if i = locations.length - 1 then [(locations.getD i (0, 0)).1]
    else [(locations.getD i (0, 0)).1, (locations.getD i (0, 0)).2]

/-- The decision chain of `get_chexons_segment_string` after trimming
(nexons.py lines 813-870): reverse-splice classification, minimum-exon
check, mapped-fraction check, gene-coverage check, then emission of the
splice boundaries with the observed genomic start/end. -/
def afterTrim (locations : List (Int × Int)) (cDNA_locations : List (Nat × Nat))
    (full_sequence_length : Nat) (reverse_exon_index : Nat) (reverse_exon_first : Bool)
    (min_exons : Nat) (map_threshold min_coverage : ℚ) (gene_start gene_end : Int) :
    Except String (Int × Int × Splice) :=
  match classifyReverse reverse_exon_index reverse_exon_first locations.length with
  | some msg => .error msg
  | none =>
    if locations.length < min_exons then .error "FAIL: Not enough exons"
    else
      let cDNA_length : Int :=
        ((cDNA_locations.getLastD (0, 0)).2 : Int) - ((cDNA_locations.headD (0, 0)).1 : Int)
      if (cDNA_length : ℚ) / (full_sequence_length : ℚ) < map_threshold then
        .error "FAIL: Transcript coverage too low"
      else if (|(locations.headD (0, 0)).1 - (locations.getLastD (0, 0)).2| : ℚ) /
          (|gene_end - gene_start| : ℚ) < min_coverage then
        .error "FAIL: Gene coverage too low"
      else
        .ok ((locations.headD (0, 0)).1, (locations.getLastD (0, 0)).2,
             splice_boundariesOf locations)

/-- `get_chexons_segment_string` from the trimming loop onwards, as a
function of the parsed locations and reverse flags. -/
def get_chexons_result (flexibility : Int) (splice_acceptors : List Int) (sequence : List Char)
    (locations : List (Int × Int)) (cDNA_locations : List (Nat × Nat))
    (reverse_exon_index : Nat) (reverse_exon_first : Bool)
    (min_exons : Nat) (map_threshold min_coverage : ℚ) (gene_start gene_end : Int) :
    Except String (Int × Int × Splice) :=
  afterTrim (trimPolyA flexibility splice_acceptors sequence locations cDNA_locations).1
    (trimPolyA flexibility splice_acceptors sequence locations cDNA_locations).2
    sequence.length reverse_exon_index reverse_exon_first
    min_exons map_threshold min_coverage gene_start gene_end

/-- Claim C4, amended: the last remaining segment is dropped exactly when
its boundary is not within flexibility of any known acceptor and the
combined occurrence count of AAAA/TTTT/ACAC/GTGT in its read-local
subsequence is strictly greater than 0.15 times the subsequence length
(the code has no ×4 factor: `count > 0.15*len`); trimming stops as soon
as a segment's boundary matches a known acceptor within tolerance — such
a segment is never removed even if repeat-rich — or no segments remain. -/
theorem trim_drops_last_iff (flexibility : Int) (splice_acceptors : List Int)
    (sequence : List Char) (locs : List (Int × Int)) (cds : List (Nat × Nat))
    (l : Int × Int) (c : Nat × Nat) :
    trimPolyA flexibility splice_acceptors sequence (locs ++ [l]) (cds ++ [c]) =
      (if splice_acceptors.any fun acceptor => decide (|acceptor - l.1| ≤ flexibility) then
        (locs ++ [l], cds ++ [c])
      else if 3 * ((sequence.drop c.1).take (c.2 - c.1)).length <
          20 * repeatScore ((sequence.drop c.1).take (c.2 - c.1)) then
        trimPolyA flexibility splice_acceptors sequence locs cds
      else (locs ++ [l], cds ++ [c])) := by
  have hlen : (locs ++ [l]).length = locs.length + 1 := by simp
  conv_lhs => rw [trimPolyA, hlen, trimGo]
  rw [show (locs ++ [l]).isEmpty = false by
        cases locs <;> simp [List.isEmpty],
      show (locs ++ [l]).getLastD (0, 0) = l from List.getLastD_concat _ _ _,
      show (cds ++ [c]).getLastD (0, 0) = c from List.getLastD_concat _ _ _,
      show (locs ++ [l]).dropLast = locs from List.dropLast_concat,
      show (cds ++ [c]).dropLast = cds from List.dropLast_concat]
  simp only [Bool.false_eq_true, if_false]
  rfl

/-- Counterexample to claim C4 as stated: a 20-base terminal subsequence
with a single AAAA occurrence satisfies the claimed condition
(4·count = 4 ≥ 0.15·20 = 3) and is not near any acceptor, yet the code
does not drop the segment (count = 1 is not > 0.15·20 = 3). -/
theorem trim_claim_counterexample :
    claimedRepeatRich ("AAAACGTCGTCGTCGTCGTC".toList) ∧
    (([] : List Int).any fun acceptor => decide (|acceptor - (100 : Int)| ≤ 5)) = false ∧
    trimPolyA 5 [] ("AAAACGTCGTCGTCGTCGTC".toList)
        [((100 : Int), (110 : Int))] [((0 : Nat), (20 : Nat))] =
      ([(100, 110)], [(0, 20)]) := by
  refine ⟨?_, rfl, rfl⟩
  unfold claimedRepeatRich
  decide

/-- Claim C7: the post-trim reverse-splice classification rejects with
exactly one of three reasons, in priority order: "last exon" iff the
reverse index equals the number of remaining junctions with no
first-segment reversal; "first exon" iff the first segment reversed and
the index is zero or out of range; "middle/>1 exon" iff the index is in
range and neither earlier case applies.  The three scenario conjuncts
check a three-segment read reversing only at the middle junction, a read
reversing only at the first segment, and a read reversing only at the
final junction, through the full embedded pipeline. -/
theorem reverse_classification_spec :
    (∀ (idx : Nat) (first : Bool) (n : Nat),
      (classifyReverse idx first n = some "FAIL: Reverse splicing or mapping (last exon)" ↔
        (idx = n ∧ first = false)) ∧
      (classifyReverse idx first n = some "FAIL: Reverse splicing or mapping (first exon)" ↔
        (first = true ∧ (idx = 0 ∨ n < idx))) ∧
      (classifyReverse idx first n = some "FAIL: Reverse splicing or mapping (middle/>1 exon)" ↔
        (0 < idx ∧ idx ≤ n ∧ (idx ≠ n ∨ first = true)))) ∧
    ((scanSegments true [(100, 200), (300, 250), (400, 500)]).reverse_exon_first = false ∧
     (scanSegments true [(100, 200), (300, 250), (400, 500)]).reverse_exon_index = 2 ∧
     get_chexons_result 5 [400] (List.replicate 30 'C')
         [(100, 200), (300, 250), (400, 500)] [(0, 10), (10, 20), (20, 30)]
         2 false 2 (1 / 10) (1 / 10) 0 1000 =
       .error "FAIL: Reverse splicing or mapping (middle/>1 exon)") ∧
    ((scanSegments true [(200, 100), (250, 300)]).reverse_exon_first = true ∧
     (scanSegments true [(200, 100), (250, 300)]).reverse_exon_index = 0 ∧
     get_chexons_result 5 [250] (List.replicate 10 'C')
         [(200, 100), (250, 300)] [(0, 5), (5, 10)]
         0 true 2 (1 / 10) (1 / 10) 0 1000 =
       .error "FAIL: Reverse splicing or mapping (first exon)") ∧
    ((scanSegments true [(100, 200), (300, 250)]).reverse_exon_first = false ∧
     (scanSegments true [(100, 200), (300, 250)]).reverse_exon_index = 2 ∧
     get_chexons_result 5 [300] (List.replicate 10 'C')
         [(100, 200), (300, 250)] [(0, 5), (5, 10)]
         2 false 2 (1 / 10) (1 / 10) 0 1000 =
       .error "FAIL: Reverse splicing or mapping (last exon)") := by
  refine ⟨?_, ⟨by decide, by decide, rfl⟩, ⟨by decide, by decide, rfl⟩,
    ⟨by decide, by decide, rfl⟩⟩
  intro idx first n
  unfold classifyReverse
  refine ⟨?_, ?_, ?_⟩ <;>
    · split_ifs with h1 h2 h3 <;> cases first <;> simp_all <;> omega

theorem scan_index_ne_one (strandPlus : Bool) :
    ∀ (segs : List (Int × Int)) (st : ScanState), st.reverse_exon_index ≠ 1 →
      (segs.foldl (scanStep strandPlus) st).reverse_exon_index ≠ 1 := by
  intro segs
  induction segs with
  | nil => intro st h; exact h
  | cons se rest ih =>
    intro st h
    rw [List.foldl_cons]
    apply ih
    show (scanStep strandPlus st se).reverse_exon_index ≠ 1
    unfold scanStep
    dsimp only
    split_ifs <;> (try simp_all) <;> omega

/-- Claim C8, amended: a read yielding exactly one segment after trimming
is rejected with "FAIL: Not enough exons" when `min_exons = 2`, whatever
the mapped-fraction and gene-coverage thresholds, provided no
reverse-splice check fires first: `reverse_exon_first` must be false (a
one-segment read with a reversed first segment is instead rejected as
reverse splicing, first exon — see the counterexample) and the reverse
index must not be 1, which the parsing loop in fact never produces
(first conjunct: the index is only ever 0 or at least 2). -/
theorem min_exons_amended :
    (∀ (strandPlus : Bool) (segs : List (Int × Int)),
      (scanSegments strandPlus segs).reverse_exon_index ≠ 1) ∧
    (∀ (flexibility : Int) (splice_acceptors : List Int) (sequence : List Char)
      (locs : List (Int × Int)) (cds : List (Nat × Nat)) (idx : Nat)
      (map_threshold min_coverage : ℚ) (gene_start gene_end : Int),
      (trimPolyA flexibility splice_acceptors sequence locs cds).1.length = 1 →
      idx ≠ 1 →
      get_chexons_result flexibility splice_acceptors sequence locs cds idx false 2
        map_threshold min_coverage gene_start gene_end = .error "FAIL: Not enough exons") := by
  constructor
  · intro strandPlus segs
    exact scan_index_ne_one strandPlus segs ⟨0, false, 0, []⟩ (by decide)
  · intro flexibility splice_acceptors sequence locs cds idx map_threshold min_coverage
      gene_start gene_end h1 h2
    unfold get_chexons_result afterTrim
    rw [h1]
    have h3 : ¬(0 < idx ∧ idx ≤ 1) := by omega
    have hcr : classifyReverse idx false 1 = none := by
      simp [classifyReverse, h2, h3]
    rw [hcr]
    norm_num

/-- Witness for the amended C8 at a concrete input (one segment kept by
trimming because its boundary sits on a known acceptor). -/
theorem min_exons_amended_witness :
    get_chexons_result 5 [100] (List.replicate 10 'C') [(100, 200)] [(0, 10)] 0 false 2
        (1 / 2) (1 / 2) 0 1000 = .error "FAIL: Not enough exons" :=
  min_exons_amended.2 5 [100] (List.replicate 10 'C') [(100, 200)] [(0, 10)] 0
    (1 / 2) (1 / 2) 0 1000 (by rfl) (by decide)

/-- Counterexample to claim C8 as stated: a read with exactly one
post-trim segment whose single segment runs against the gene's strand is
rejected as reverse splicing (first exon), not as "not enough exons",
even with `min_exons = 2`. -/
theorem min_exons_claim_counterexample :
    (trimPolyA 5 [200] (List.replicate 10 'C') [(200, 100)] [(0, 10)]).1.length = 1 ∧
    (scanSegments true [(200, 100)]).reverse_exon_first = true ∧
    (scanSegments true [(200, 100)]).reverse_exon_index = 0 ∧
    get_chexons_result 5 [200] (List.replicate 10 'C') [(200, 100)] [(0, 10)]
        (scanSegments true [(200, 100)]).reverse_exon_index
        (scanSegments true [(200, 100)]).reverse_exon_first
        2 (1 / 10) (1 / 10) 0 1000 =
      .error "FAIL: Reverse splicing or mapping (first exon)" :=
  ⟨rfl, rfl, rfl, rfl⟩

/-- Claim C10: when polyA trimming removes every segment and no reverse
segment was flagged while parsing (index 0, flag false), the read is
rejected with the reverse-splicing last-exon reason — the never-set
reverse index 0 equals the length of the now-empty location list — and
not with the "not enough exons" reason. -/
theorem empty_after_trim_last_exon (flexibility : Int) (splice_acceptors : List Int)
    (sequence : List Char) (locs : List (Int × Int)) (cds : List (Nat × Nat))
    (min_exons : Nat) (map_threshold min_coverage : ℚ) (gene_start gene_end : Int)
    (h : (trimPolyA flexibility splice_acceptors sequence locs cds).1 = []) :
    get_chexons_result flexibility splice_acceptors sequence locs cds 0 false min_exons
        map_threshold min_coverage gene_start gene_end =
      .error "FAIL: Reverse splicing or mapping (last exon)" ∧
    "FAIL: Reverse splicing or mapping (last exon)" ≠ "FAIL: Not enough exons" := by
  constructor
  · unfold get_chexons_result afterTrim
    rw [h]
    rfl
  · decide

/-- Witness for C10: a read whose single segment is pure AAAA-repeat and
not near any acceptor loses every segment to trimming and is rejected
with the last-exon reverse-splicing reason. -/
theorem empty_after_trim_last_exon_witness :
    get_chexons_result 5 [] (List.replicate 20 'A') [(100, 200)] [(0, 20)] 0 false 2
        (1 / 2) (1 / 2) 0 1000 =
      .error "FAIL: Reverse splicing or mapping (last exon)" ∧
    "FAIL: Reverse splicing or mapping (last exon)" ≠ "FAIL: Not enough exons" :=
  empty_after_trim_last_exon 5 [] (List.replicate 20 'A') [(100, 200)] [(0, 20)] 2
    (1 / 2) (1 / 2) 0 1000 (by rfl)

/-- The per-pattern metadata record of `splice_counts[gene]`
(nexons.py lines 156-162): `uncorrected_splice` is `none` for the
`"no_correction"` sentinel and `some p` for an original pattern `p`. -/
structure SpliceRecord where
  transcript_id : Str
  count : Int
  strand : Str
  merged_isoforms : List Str
  uncorrected_splice : Option Splice
deriving DecidableEq, Repr

/-- One sample's observation of one pattern
(`data[bam][gene][splice] = {count, start, end}`). -/
structure CountData where
  count : Int
  start : List Int
  end_ : List Int
deriving DecidableEq, Repr

/-- One bucket of `merged_data[bam][gene]` (nexons.py line 239). -/
structure MergedBucket where
  count : Int
  start : List Int
  end_ : List Int
  merged_isoforms : List Str
deriving DecidableEq, Repr

/-- Python `d[k] = f(d[k])` on a dict modelled as an association list:
`none` when the key is absent (KeyError). -/
def aset {β : Type} : List (Splice × β) → Splice → (β → β) → Option (List (Splice × β))
  | [], _, _ => none
  | (k, v) :: rest, key, f =>
    if key = k then some ((k, f v) :: rest)
    else (aset rest key f).map ((k, v) :: ·)

/-- Python `d.pop(k)`: the removed value and the remaining dict, `none`
when the key is absent (KeyError). -/
def apop {β : Type} : List (Splice × β) → Splice → Option (β × List (Splice × β))
  | [], _ => none
  | (k, v) :: rest, key =>
    if key = k then some (v, rest)
    else (apop rest key).map (fun p => (p.1, (k, v) :: p.2))

/-- Python `d[k] = v` where `k` may be new: replace in place or append
(dict insertion order). -/
def ainsert {β : Type} : List (Splice × β) → Splice → β → List (Splice × β)
  | [], key, v => [(key, v)]
  | (k, w) :: rest, key, v =>
    if key = k then (k, v) :: rest else (k, w) :: ainsert rest key v

/-- Python `set.add` on a set modelled as a duplicate-free list in
insertion order. -/
def setAdd (l : List Str) (x : Str) : List Str := if x ∈ l then l else l ++ [x]

/-- The mutable per-gene state of the count-folding loop: the
`splice_counts[gene]` records (shared across samples) and the current
sample's `merged_data[bam][gene]`. -/
structure FoldState where
  counts : List (Splice × SpliceRecord)
  merged : List (Splice × MergedBucket)
deriving DecidableEq, Repr

/-- The body of `for splice in these_splices` in `collate_splice_variants`
(nexons.py lines 235-252): resolve the pattern through the name map,
create the merged bucket if needed, then the three-way branch (identity /
rekey after correction / merge into a distinct accepted pattern), then
accumulate count and start/end coordinates into the resolved bucket.
Missing dict keys are Python KeyErrors, returned as `Except.error`. -/
def processSplice (nameMap : List (Splice × MapEntry)) (st : FoldState)
    (item : Splice × CountData) : Except String FoldState :=
  let splice := item.1
  let cd := item.2
  match alookup nameMap splice with
  | none => .error "KeyError: splice_name_map"
  | some entry =>
    let used := entry.splice
    let merged0 :=
      if (alookup st.merged used).isNone then st.merged ++ [(used, ⟨0, [], [], []⟩)]
      else st.merged
    let step1 : Except String (List (Splice × SpliceRecord) × List (Splice × MergedBucket)) :=
      if used = splice then
        match aset st.counts splice (fun r => { r with uncorrected_splice := none }) with
        | none => .error "KeyError: splice_counts"
        | some c => .ok (c, merged0)
      else if entry.updated then
        match apop st.counts splice with
        | none => .error "KeyError: splice_counts.pop"
        | some (r, rest) =>
          .ok (ainsert rest used { r with uncorrected_splice := some splice }, merged0)
      else
        match aset st.counts splice (fun r => { r with uncorrected_splice := none }) with
        | none => .error "KeyError: splice_counts"
        | some c =>
          match alookup c splice with
          | none => .error "KeyError: splice_counts"
          | some src =>
            if "ENSMUST".toList.isPrefixOf src.transcript_id then
              match aset merged0 used
                  (fun b => { b with merged_isoforms := b.merged_isoforms ++ [src.transcript_id] }) with
              | none => .error "KeyError: merged_data"
              | some m1 =>
                match aset c used
                    (fun r => { r with merged_isoforms := setAdd r.merged_isoforms src.transcript_id }) with
                | none => .error "KeyError: splice_counts[used_splice]"
                | some c2 => .ok (c2, m1)
            else .ok (c, merged0)
    match step1 with
    | .error e => .error e
    | .ok (c, m) =>
      match aset m used (fun b =>
          { b with count := b.count + cd.count,
                   start := b.start ++ cd.start,
                   end_ := b.end_ ++ cd.end_ }) with
      | none => .error "KeyError: merged_data"
      | some m2 => .ok ⟨c, m2⟩

/-- One sample's pass of the folding loop: fresh `merged_data[bam][gene]`,
`splice_counts[gene]` carried in. -/
def processBamGene (nameMap : List (Splice × MapEntry))
    (bamData : List (Splice × CountData)) (counts : List (Splice × SpliceRecord)) :
    Except String FoldState :=
  bamData.foldlM (processSplice nameMap) ⟨counts, []⟩

/-- The whole `for bam in bam_files` fold for one gene: the shared
`splice_counts[gene]` threads across samples; each sample gets its own
merged table. -/
def collate_fold (nameMap : List (Splice × MapEntry)) :
    List (List (Splice × CountData)) → List (Splice × SpliceRecord) →
    Except String (List (Splice × SpliceRecord) × List (List (Splice × MergedBucket)))
  | [], counts => .ok (counts, [])
  | bd :: rest, counts =>
    match processBamGene nameMap bd counts with
    | .error e => .error e
    | .ok st =>
      match collate_fold nameMap rest st.counts with
      | .error e => .error e
      | .ok (cf, ms) => .ok (cf, st.merged :: ms)

/-- Claim C5: the folding step does rekey a corrected pattern's record to
the corrected key and carry the original as provenance, but the
bookkeeping does NOT remain correct across samples: with two samples both
observing novel pattern ((498),(900)), corrected to ((500),(900)) under
flexibility 5 with donor 500 and acceptor 900, the second sample's
iteration calls `splice_counts[gene].pop` on the already-rekeyed original
pattern and raises KeyError, aborting the run. -/
theorem collate_rekey_second_sample_keyerror :
    (alookup (create_splice_name_map [[[498], [900]]] 5 [500] [900]) [[498], [900]] =
      some ⟨[[500], [900]], true⟩) ∧
    collate_fold (create_splice_name_map [[[498], [900]]] 5 [500] [900])
        [[([[498], [900]], ⟨1, [10], [20]⟩)], [([[498], [900]], ⟨1, [11], [21]⟩)]]
        [([[498], [900]], ⟨"Variant1".toList, 2, "tbc".toList, [], none⟩)] =
      .error "KeyError: splice_counts.pop" ∧
    collate_fold (create_splice_name_map [[[498], [900]]] 5 [500] [900])
        [[([[498], [900]], ⟨1, [10], [20]⟩)]]
        [([[498], [900]], ⟨"Variant1".toList, 2, "tbc".toList, [], none⟩)] =
      .ok ([([[500], [900]], ⟨"Variant1".toList, 2, "tbc".toList, [], some [[498], [900]]⟩)],
           [[([[500], [900]], ⟨1, [10], [20], []⟩)]]) :=
  ⟨rfl, rfl, rfl⟩

/-- Claim C6: when a pattern resolves to a distinct previously accepted
pattern without correction (a merge), the source's transcript id is
appended into the target's merged-isoform set — the target record is
otherwise unchanged, in particular its own transcript id is not
overwritten — precisely when the source id carries the known-annotation
prefix ENSMUST; the source's own record stays addressable under its own
key with `uncorrected_splice = "no_correction"`, while the source's
counts and coordinates flow into the target's merged bucket. -/
theorem collate_merge_case_spec (splice used : Splice) (h : used ≠ splice)
    (src tgt : SpliceRecord) (cd : CountData) :
    processSplice [(splice, ⟨used, false⟩)] ⟨[(splice, src), (used, tgt)], []⟩ (splice, cd) =
      .ok ⟨[(splice, { src with uncorrected_splice := none }),
            (used,
              if "ENSMUST".toList.isPrefixOf src.transcript_id then
                { tgt with merged_isoforms := setAdd tgt.merged_isoforms src.transcript_id }
              else tgt)],
           [(used, ⟨cd.count, cd.start, cd.end_,
              if "ENSMUST".toList.isPrefixOf src.transcript_id then [src.transcript_id]
              else []⟩)]⟩ := by
  by_cases hp : "ENSMUST".toList.isPrefixOf src.transcript_id
  · have hp' : "ENSMUST".toList <+: src.transcript_id := by simpa using hp
    have hp2 : ['E', 'N', 'S', 'M', 'U', 'S', 'T'] <+: src.transcript_id := hp'
    simp [processSplice, alookup, aset, h, hp2]
  · have hp' : ¬ ("ENSMUST".toList <+: src.transcript_id) := by simpa using hp
    have hp2 : ¬ (['E', 'N', 'S', 'M', 'U', 'S', 'T'] <+: src.transcript_id) := hp'
    simp [processSplice, alookup, aset, h, hp2]

/-- Witness for C6 at a concrete input: an annotated source record
(prefix ENSMUST) merging into a distinct target pattern. -/
theorem collate_merge_case_witness :
    processSplice [([[1], [2]], ⟨[[1], [3]], false⟩)]
        ⟨[([[1], [2]], ⟨"ENSMUST0001".toList, 7, "+".toList, [], none⟩),
          ([[1], [3]], ⟨"ENSMUST0002".toList, 9, "+".toList, [], none⟩)], []⟩
        ([[1], [2]], ⟨5, [7], [9]⟩) =
      .ok ⟨[([[1], [2]], ⟨"ENSMUST0001".toList, 7, "+".toList, [], none⟩),
            ([[1], [3]], ⟨"ENSMUST0002".toList, 9, "+".toList, ["ENSMUST0001".toList], none⟩)],
           [([[1], [3]], ⟨5, [7], [9], ["ENSMUST0001".toList]⟩)]⟩ := by
  have hres := collate_merge_case_spec [[1], [2]] [[1], [3]] (by decide)
    ⟨"ENSMUST0001".toList, 7, "+".toList, [], none⟩
    ⟨"ENSMUST0002".toList, 9, "+".toList, [], none⟩ ⟨5, [7], [9]⟩
  exact hres.trans (by rfl)

/-- Python `str.split(sep)` for a one-character separator. -/
def splitOnChar (sep : Char) : List Char → List (List Char)
  | [] => [[]]
  | ch :: rest =>
    let r := splitOnChar sep rest
    if ch = sep then [] :: r
    else
      match r with
      | [] => [[ch]]
      | g :: gs => (ch :: g) :: gs

/-- Python `str.strip()`: remove leading and trailing whitespace. -/
def stripChars (s : List Char) : List Char :=
  (((s.dropWhile Char.isWhitespace).reverse).dropWhile Char.isWhitespace).reverse

/-- Python `str.replace('"', '')`. -/
def removeQuotes (s : List Char) : List Char := s.filter fun ch => decide (ch ≠ '"')

def digitsToNatAux : List Char → Nat → Option Nat
  | [], acc => some acc
  | ch :: rest, acc =>
    if ch.isDigit then digitsToNatAux rest (acc * 10 + (ch.toNat - '0'.toNat))
    else none

def digitsToNat (s : List Char) : Option Nat :=
  if s.isEmpty then none else digitsToNatAux s 0

/-- Python `int(s)` on an already-stripped string (`none` models
ValueError). -/
def toIntL (s : List Char) : Option Int :=
  match s with
  | '-' :: rest => (digitsToNat rest).map fun n => -(n : Int)
  | _ => (digitsToNat s).map fun n => (n : Int)

/-- The attribute values accumulated by the comment-scanning loop of
`read_gtf` (nexons.py lines 1030-1062). -/
structure GtfAttrs where
  gene_id : Option Str
  gene_name : Option Str
  transcript_id : Option Str
  transcript_name : Option Str
  exon_number : Option Int
  transcript_confidence : Int
deriving DecidableEq, Repr

def emptyAttrs : GtfAttrs := ⟨none, none, none, none, none, 0⟩

/-- `if comment.strip().startswith("ccds"): transcript_confidence += 10`. -/
def applyCcds (a : GtfAttrs) (st : Str) : GtfAttrs :=
  if "ccds".toList.isPrefixOf st then
    { a with transcript_confidence := a.transcript_confidence + 10 }
  else a

/-- The `transcript_support_level` and `ccds` confidence updates;
indexing `[0]` into an empty support-level string is Python IndexError. -/
def afterExonNumber (a : GtfAttrs) (st : Str) : Except String GtfAttrs :=
  if "transcript_support_level".toList.isPrefixOf st then
    match stripChars (removeQuotes (st.drop 25)) with
    | [] => .error "IndexError: string index out of range"
    | ch :: _ =>
      let conf := if ch = '1' ∨ ch = '2' ∨ ch = '3' ∨ ch = '4' ∨ ch = '5' then
          a.transcript_confidence - ((ch.toNat : Int) - ('0'.toNat : Int))
        else a.transcript_confidence - 6
      .ok (applyCcds { a with transcript_confidence := conf } st)
  else .ok (applyCcds a st)

/-- One attribute (`comment`) of a GTF line, with the exact slicing
offsets of the source: `gene_id` and `transcript_id` slice the raw
comment (`comment[8:]`, `comment[15:]`), the others slice the stripped
comment; `int()` of a malformed `exon_number` value is ValueError. -/
def scanComment (a0 : GtfAttrs) (comment : Str) : Except String GtfAttrs :=
  let st := stripChars comment
  let a1 := if "gene_id".toList.isPrefixOf st then
      { a0 with gene_id := some (stripChars (removeQuotes (comment.drop 8))) } else a0
  let a2 := if "gene_name".toList.isPrefixOf st then
      { a1 with gene_name := some (stripChars (removeQuotes (st.drop 10))) } else a1
  let a3 := if "transcript_id".toList.isPrefixOf st then
      { a2 with transcript_id := some (stripChars (removeQuotes (comment.drop 15))) } else a2
  let a4 := if "transcript_name".toList.isPrefixOf st then
      { a3 with transcript_name := some (stripChars (removeQuotes (st.drop 17))) } else a3
  if "exon_number".toList.isPrefixOf st then
    match toIntL (stripChars (removeQuotes (st.drop 12))) with
    | none => .error "ValueError: invalid literal for int()"
    | some k => afterExonNumber { a4 with exon_number := some k } st
  else afterExonNumber a4 st

def scanComments : GtfAttrs → List Str → Except String GtfAttrs
  | a, [] => .ok a
  | a, c :: rest =>
    match scanComment a c with
    | .error e => .error e
    | .ok a' => scanComments a' rest

/-- Outcome of `read_gtf` for one input line: skipped with a warning,
skipped silently, or fully processed.  `addsAcceptor` records whether
line 1134's `exon_number > 1` test adds `start` (plus strand) or `end`
to the gene's splice-acceptor set. -/
inductive GtfLineResult where
  | comment : GtfLineResult
  | skippedShort : GtfLineResult
  | skippedNotExon : GtfLineResult
  | skippedNoGene : GtfLineResult
  | skippedNoTranscript : GtfLineResult
  | filteredOut : GtfLineResult
  | processed (chrom : Str) (start end_ : Int) (strand : Str)
      (gene_id gene_name transcript_id transcript_name : Str)
      (exon_number : Int) (transcript_confidence : Int)
      (addsAcceptor : Bool) (acceptorPos : Int) : GtfLineResult
deriving DecidableEq, Repr

/-- Processing of one GTF line by `read_gtf` (nexons.py lines 1007-1135):
comments and non-exon features are skipped, short lines and lines with no
resolvable gene or transcript identifier are warned about and skipped,
and a surviving exon line reaches the `exon_number > 1` comparison of
line 1134 — which in Python raises TypeError when the attribute was
absent (`None > 1`), aborting the whole read. -/
def processGtfLine (gene_filter : Option Str) (line : Str) : Except String GtfLineResult :=
  if "#".toList.isPrefixOf line then .ok .comment
  else
    let sections := splitOnChar '\t' line
    if sections.length < 7 then .ok .skippedShort
    else if sections.getD 2 [] ≠ "exon".toList then .ok .skippedNotExon
    else
      let chrom := sections.getD 0 []
      match toIntL (sections.getD 3 []), toIntL (sections.getD 4 []) with
      | some start, some end_ =>
        let strand := sections.getD 6 []
        if sections.length ≤ 8 then .error "IndexError: list index out of range"
        else
          match scanComments emptyAttrs (splitOnChar ';' (sections.getD 8 [])) with
          | .error e => .error e
          | .ok attrs =>
            if attrs.gene_id = none ∧ attrs.gene_name = none then .ok .skippedNoGene
            else if attrs.transcript_id = none ∧ attrs.transcript_name = none then
              .ok .skippedNoTranscript
            else
              let gene_id := attrs.gene_id.getD (attrs.gene_name.getD [])
              let gene_name := attrs.gene_name.getD gene_id
              let pass := match gene_filter with
                | none => true
                | some gf => decide (gene_name = gf ∨ gene_id = gf)
              if pass then
                let transcript_id := attrs.transcript_id.getD (attrs.transcript_name.getD [])
                let transcript_name := attrs.transcript_name.getD transcript_id
                match attrs.exon_number with
                | none =>
                  .error "TypeError: '>' not supported between instances of 'NoneType' and 'int'"
                | some k =>
                  .ok (.processed chrom start end_ strand gene_id gene_name
                    transcript_id transcript_name k attrs.transcript_confidence
                    (decide (1 < k)) (if strand = "+".toList then start else end_))
              else .ok .filteredOut
      | _, _ => .error "ValueError: invalid literal for int()"

/-- Claim C9: an exon line with resolvable gene and transcript
identifiers but no `exon_number` attribute does NOT get warned about and
skipped — it aborts `read_gtf` with a TypeError at the `exon_number > 1`
comparison (first conjunct), while a line missing its transcript
identifier is warned about and skipped (second conjunct) and a
well-formed line is processed (third conjunct). -/
theorem gtf_missing_exon_number_aborts :
    processGtfLine none
        ("chr1\thavana\texon\t100\t200\t.\t+\t.\tgene_id \"G1\"; transcript_id \"T1\"".toList) =
      .error "TypeError: '>' not supported between instances of 'NoneType' and 'int'" ∧
    processGtfLine none
        ("chr1\thavana\texon\t100\t200\t.\t+\t.\tgene_id \"G1\"".toList) =
      .ok .skippedNoTranscript ∧
    processGtfLine none
        ("chr1\thavana\texon\t100\t200\t.\t+\t.\tgene_id \"G1\"; transcript_id \"T1\"; exon_number \"2\"".toList) =
      .ok (.processed "chr1".toList 100 200 "+".toList "G1".toList "G1".toList
        "T1".toList "T1".toList 2 0 true 100) :=
  ⟨rfl, rfl, rfl⟩

end Nexons
